import Mathlib

/-!
# Verification of the hivepulse membership and activity-aggregation pipeline

Shallow embedding of the core of the `hivepulse` repository:

* `src/analytics/collector.py`  — `AnalyticsCollector` (per-user collection,
  community stats, health index, top performers);
* `src/database/manager.py`     — `DatabaseManager` (users / daily_activity
  tables, lifecycle tag updates, upsert storage);
* `src/management/community_manager.py` — `CommunityMemberManager`
  (follower-set reconciliation: join / leave / rejoin).

Python strings are modelled as Lean `String`s (operationally via their
`List Char` data), SQL tables as Lean lists of row structures where
`INSERT OR REPLACE` on a UNIQUE key is delete-then-insert, floats as `ℚ`,
and `datetime.now()` as an explicitly threaded `now : String` parameter.
Claim-irrelevant columns (SQLite rowids, autoincrement ids, timestamps
added by column defaults) are omitted from row structures.
-/

namespace HivePulse

/-! ## String machinery

Python's `needle in hay` substring test and `str.startswith`, modelled on the
character list underlying a `String`.  -/

/-- `leadsWith n h` : the list `n` is a prefix of the list `h`
(Python `h.startswith(n)` on the underlying characters). -/
def leadsWith : List Char → List Char → Bool
  | [], _ => true
  | _ :: _, [] => false
  | a :: as, b :: bs => a == b && leadsWith as bs

/-- `hasSub n h` : the list `n` occurs contiguously inside `h`
(Python `n in h` substring containment). -/
def hasSub (n : List Char) : List Char → Bool
  | [] => n.isEmpty
  | c :: t => leadsWith n (c :: t) || hasSub n t

/-- Python `needle in hay` on strings. -/
def containsStr (hay needle : String) : Bool :=
  hasSub needle.data hay.data

/-- Python `s.split(",")` on the underlying characters. -/
def splitComma : List Char → List (List Char)
  | [] => [[]]
  | c :: t =>
    if c == ',' then [] :: splitComma t
    else
      match splitComma t with
      | [] => [[c]]
      | h :: r => (c :: h) :: r

/-- Python `s.replace(pat, "")`: delete every (left-to-right, non-overlapping)
occurrence of `pat` in the character list. -/
def removeAll (pat : List Char) : List Char → List Char
  | [] => []
  | c :: t =>
    if pat ≠ [] && leadsWith pat (c :: t) then
      removeAll pat (List.drop (pat.length - 1) t)
    else
      c :: removeAll pat t
termination_by l => l.length
decreasing_by
  all_goals simp only [List.length_drop, List.length_cons]
  all_goals omega

/-- Lexicographic strict comparison of character lists; for well-formed ISO-8601
timestamp strings this agrees with the chronological order that Python's
`datetime` comparison in the source computes. -/
def lexLt : List Char → List Char → Bool
  | [], [] => false
  | [], _ :: _ => true
  | _ :: _, [] => false
  | a :: as, b :: bs => if a < b then true else if b < a then false else lexLt as bs

/-! ## Data model: `src/analytics/collector.py` dataclass `UserActivity` -/

/-- `UserActivity` dataclass of `src/analytics/collector.py` (note: it has no
`patacoins_earned` field; that field exists only on the separate, unused
`src/database/models.py` dataclass of the same name). -/
structure UserActivity where
  username : String
  posts_count : Nat
  comments_count : Nat
  upvotes_given : Nat
  upvotes_received : Nat
  engagement_score : ℚ
deriving DecidableEq, Repr

/-! ## Raw blockchain operations

`AnalyticsCollector.get_user_blockchain_activity` reads each raw activity as
`activity.get('type', '')` and, for `'comment'` operations,
`activity.get('data', {}).get('op', [None, {}])` whose element at index 1 is a
dict read with `comment_data.get('parent_author', '')`.  -/

/-- One element of the `op` list: only its `parent_author` key is ever read
(`none` models a dict without that key, or the literal `None`/`{}` fillers). -/
structure OpElem where
  parent_author : Option String
deriving DecidableEq, Repr

/-- A raw activity item: its `type` string and the `data.op` list
(`none` models a missing `data`/`op` key, for which the code substitutes
the default `[None, {}]`). -/
structure RawActivity where
  type : String
  dataOp : Option (List OpElem)
deriving DecidableEq, Repr

/-- `activity.get('data', {}).get('op', [None, {}])`. -/
def opListOf (a : RawActivity) : List OpElem :=
  a.dataOp.getD [⟨none⟩, ⟨none⟩]

/-- `op_data[1]`'s `parent_author`, with Python's `.get('parent_author', '')`
default (the code only evaluates this after checking `len(op_data) > 1`). -/
def parentAt1 (a : RawActivity) : String :=
  (((opListOf a).get? 1).getD ⟨none⟩).parent_author.getD ""

/-- The counting loop body of `get_user_blockchain_activity`
(state: posts_count, comments_count, upvotes_given). -/
def countsStep (s : Nat × Nat × Nat) (a : RawActivity) : Nat × Nat × Nat :=
  if a.type == "comment" then
    if (opListOf a).length > 1 then
      if parentAt1 a == "" then (s.1 + 1, s.2.1, s.2.2)
      else (s.1, s.2.1 + 1, s.2.2)
    else s
  else if a.type == "vote" then (s.1, s.2.1, s.2.2 + 1)
  else s

/-- Successful path of `AnalyticsCollector.get_user_blockchain_activity`:
classify the raw activities, then
`engagement_score = min(total_activity * 0.1, 10.0)` where
`total_activity = posts_count + comments_count + upvotes_given`
(`upvotes_received` is left 0 — "TODO: Need separate API call"). -/
def getUserBlockchainActivityOk (username : String) (raws : List RawActivity) :
    UserActivity :=
  let c := raws.foldl countsStep (0, 0, 0)
  { username := username
    posts_count := c.1
    comments_count := c.2.1
    upvotes_given := c.2.2
    upvotes_received := 0
    engagement_score := min ((c.1 + c.2.1 + c.2.2 : ℚ) * (1 / 10)) 10 }

/-- `AnalyticsCollector.get_user_blockchain_activity` including its
`except` clause: on any fetch/parse error it returns
`UserActivity(username=username)`, i.e. the all-zero record. -/
def getUserBlockchainActivity (username : String)
    (fetched : Except String (List RawActivity)) : UserActivity :=
  match fetched with
  | .ok raws => getUserBlockchainActivityOk username raws
  | .error _ =>
    { username := username, posts_count := 0, comments_count := 0
      upvotes_given := 0, upvotes_received := 0, engagement_score := 0 }

/-- The collector's call site: it invokes the Activity Source as
`self.hive_api.get_user_blockchain_activity(username, days=1)` — the `date`
argument of the collector method is never passed to the source.  `fetch`
abstracts the Activity Source as a function of (username, days). -/
def collectViaApi (fetch : String → Nat → Except String (List RawActivity))
    (username date : String) : UserActivity :=
  getUserBlockchainActivity username (fetch username 1)

/-! ### Specification-side classification predicates (for claim C1) -/

/-- An operation counted as a post: kind `comment`, an `op` list longer than 1,
and empty parent reference. -/
def isPostOp (a : RawActivity) : Bool :=
  a.type == "comment" && (opListOf a).length > 1 && parentAt1 a == ""

/-- An operation counted as a comment: kind `comment`, an `op` list longer
than 1, and non-empty parent reference. -/
def isCommentOp (a : RawActivity) : Bool :=
  a.type == "comment" && (opListOf a).length > 1 && !(parentAt1 a == "")

/-- An operation counted as an upvote given. -/
def isVoteOp (a : RawActivity) : Bool :=
  !(a.type == "comment") && a.type == "vote"

/-- A content operation with empty parent reference (scenario input of C1). -/
def contentOp (parent : String) : RawActivity :=
  ⟨"comment", some [⟨none⟩, ⟨some parent⟩]⟩

/-- A vote operation (scenario input of C1). -/
def voteOp : RawActivity := ⟨"vote", none⟩

/-- Raw operations of the C1 scenario: two content operations (one with empty
parent reference, one with non-empty parent reference) and three votes. -/
def c1ScenarioRaws : List RawActivity :=
  [contentOp "", contentOp "someone", voteOp, voteOp, voteOp]

/-! ## Database rows (`src/database/migrations.py` schemas)

The `users` table (migration 001) has columns
`id, username (UNIQUE), display_name, reputation, followers, following,
created_at, updated_at, is_active, is_business, business_description, tags`
— in particular it has **no** `join_date` column.  The `daily_activity` table
(`DatabaseManager.initialize_database`) has columns
`id, date, username, posts_count, comments_count, upvotes_given,
upvotes_received, engagement_score, timestamp, UNIQUE(date, username)`.
Autoincrement `id`s and default `timestamp`s are claim-irrelevant and
omitted. -/

/-- A row of the `users` table (minus `id`). -/
structure UserRow where
  username : String
  display_name : String
  reputation : Int
  followers : Int
  following : Int
  created_at : String
  updated_at : String
  is_active : Bool
  is_business : Bool
  business_description : String
  tags : String
deriving DecidableEq, Repr

/-- A row of the `daily_activity` table (minus `id` and `timestamp`). -/
structure DailyRow where
  date : String
  username : String
  posts_count : Nat
  comments_count : Nat
  upvotes_given : Nat
  upvotes_received : Nat
  engagement_score : ℚ
deriving DecidableEq, Repr

/-- A SQL column value as surfaced to Python through `dict(row)`. -/
inductive SqlVal where
  | int (i : Int)
  | text (s : String)
  | bool (b : Bool)
deriving DecidableEq, Repr

/-- `MembershipChange` dataclass of `src/management/community_manager.py`. -/
structure MembershipChange where
  username : String
  action : String
  timestamp : String
  previous_join_date : Option String
deriving DecidableEq, Repr

/-- The mutable database state touched by the claims: the `users` table, the
`user_activities` table (only its (username, date) keys matter here) and the
`daily_activity` table, plus the `bot_logs` membership-change log. -/
structure DBState where
  users : List UserRow
  user_activities : List (String × String)
  daily_activity : List DailyRow
  bot_logs : List MembershipChange
deriving DecidableEq, Repr

/-! ## `DatabaseManager` operations (`src/database/manager.py`) -/

/-- `DatabaseManager.get_tracked_users`:
`SELECT username FROM users WHERE is_active = 1`. -/
def getTrackedUsers (st : DBState) : List String :=
  (st.users.filter (·.is_active)).map (·.username)

/-- `DatabaseManager.get_user_info`: `SELECT * FROM users WHERE username = ?`,
first row or `None` (the UNIQUE constraint keeps at most one). -/
def getUserInfo (st : DBState) (u : String) : Option UserRow :=
  st.users.find? (·.username == u)

/-- `DatabaseManager.add_user_with_join_date`: `INSERT OR REPLACE INTO users`
with `created_at = updated_at = join_date`, `is_active = 1`, `is_business = 0`
and `tags = "joined:<join_date>"`; on the UNIQUE `username`, SQLite's
`OR REPLACE` deletes any conflicting row before inserting. -/
def addUserWithJoinDate (st : DBState) (username display_name : String)
    (join_date : String) (reputation followers following : Int) : DBState :=
  { st with users :=
      { username := username, display_name := display_name
        reputation := reputation, followers := followers, following := following
        created_at := join_date, updated_at := join_date
        is_active := true, is_business := false
        business_description := "", tags := "joined:" ++ join_date } ::
      st.users.filter (fun r => !(r.username == username)) }

/-- The tag update of `DatabaseManager.deactivate_user_with_leave_date`:
`f"{current_tags},left:{leave_date}" if current_tags else f"left:{leave_date}"`. -/
def leaveTags (current leave_date : String) : String :=
  if current = "" then "left:" ++ leave_date
  else current ++ ",left:" ++ leave_date

/-- `DatabaseManager.deactivate_user_with_leave_date`: reads the user's current
tags, then `UPDATE users SET is_active = 0, updated_at = leave, tags = new`. -/
def deactivateUserWithLeaveDate (st : DBState) (username leave_date : String) :
    DBState :=
  let current := ((getUserInfo st username).map (·.tags)).getD ""
  { st with users := st.users.map (fun r =>
      if r.username == username then
        { r with is_active := false, updated_at := leave_date
                 tags := leaveTags current leave_date }
      else r) }

/-- The tag string written by `DatabaseManager.reset_user_tracking`:
`f"rejoined:{new_join_date},{history_tag}"` where `history_tag` is
`previous_member:<prev>` or bare `previous_member` — note it is built without
reading the row's current tags. -/
def rejoinTags (new_join_date : String) (previous_join_date : Option String) :
    String :=
  "rejoined:" ++ new_join_date ++ "," ++
    (match previous_join_date with
     | some p => "previous_member:" ++ p
     | none => "previous_member")

/-- `DatabaseManager.reset_user_tracking`: `UPDATE users SET is_active = 1,
created_at = updated_at = new_join_date, tags = <rejoinTags>`, then
`DELETE FROM user_activities` and `DELETE FROM daily_activity` for the user. -/
def resetUserTracking (st : DBState) (username new_join_date : String)
    (previous_join_date : Option String) : DBState :=
  { st with
    users := st.users.map (fun r =>
      if r.username == username then
        { r with is_active := true
                 created_at := new_join_date, updated_at := new_join_date
                 tags := rejoinTags new_join_date previous_join_date }
      else r)
    user_activities := st.user_activities.filter (fun p => !(p.1 == username))
    daily_activity := st.daily_activity.filter (fun r => !(r.username == username)) }

/-- Result of `DatabaseManager.get_user_history`. -/
structure UserHistory where
  username : String
  has_previous_membership : Bool
  last_join_date : Option String
  is_currently_active : Bool
  last_updated : String
deriving DecidableEq, Repr

/-- `DatabaseManager.get_user_history`: `has_previous_membership` iff the tags
contain `left:` or `previous_member:` as substrings; `last_join_date` is the
first comma-separated tag starting with `joined:`, with that marker removed. -/
def getUserHistory (st : DBState) (u : String) : Option UserHistory :=
  match getUserInfo st u with
  | none => none
  | some row =>
    let tags := row.tags
    some
      { username := row.username
        has_previous_membership :=
          containsStr tags "left:" || containsStr tags "previous_member:"
        last_join_date :=
          if containsStr tags "joined:" then
            ((splitComma tags.data).find? (fun t => leadsWith "joined:".data t)).map
              (fun t => String.mk (removeAll "joined:".data t))
          else none
        is_currently_active := row.is_active
        last_updated := row.updated_at }

/-- One `INSERT OR REPLACE INTO daily_activity` of
`DatabaseManager.store_user_activities` (UNIQUE key `(date, username)`):
delete-then-insert. -/
def upsertDaily (rows : List DailyRow) (a : UserActivity) (date : String) :
    List DailyRow :=
  { date := date, username := a.username
    posts_count := a.posts_count, comments_count := a.comments_count
    upvotes_given := a.upvotes_given, upvotes_received := a.upvotes_received
    engagement_score := a.engagement_score } ::
  rows.filter (fun r => !(r.date == date && r.username == a.username))

/-- `DatabaseManager.store_user_activities` on the `daily_activity` table:
one upsert per activity, in list order. -/
def storeUserActivities (rows : List DailyRow) (acts : List UserActivity)
    (date : String) : List DailyRow :=
  acts.foldl (fun rs a => upsertDaily rs a date) rows

/-- `store_user_activities` lifted to the database state. -/
def storeUserActivitiesSt (st : DBState) (acts : List UserActivity)
    (date : String) : DBState :=
  { st with daily_activity := storeUserActivities st.daily_activity acts date }

/-! ## `CommunityMemberManager` (`src/management/community_manager.py`) -/

/-- The dict returned by `HiveAPIClient.get_account_info_extended`, restricted
to the keys `_add_new_member` reads. -/
structure AccountInfo where
  display_name : String
  reputation : Int
  followers : Int
  following : Int
deriving DecidableEq, Repr

/-- `CommunityMemberManager._add_new_member`: if account info is available,
add the user with `join_date = now` and log a `joined` change; returns whether
a member was added. -/
def addNewMember (accountInfo : String → Option AccountInfo)
    (now : String) (st : DBState) (username : String) : DBState × Bool :=
  match accountInfo username with
  | some info =>
    let st1 := addUserWithJoinDate st username info.display_name now
      info.reputation info.followers info.following
    ({ st1 with bot_logs := st1.bot_logs ++ [⟨username, "joined", now, none⟩] },
     true)
  | none => (st, false)

/-- `CommunityMemberManager._handle_member_left`: deactivate with leave date
`now` and log a `left` change (the SQL `UPDATE` "succeeds" even for an
unknown username, so this always counts). -/
def handleMemberLeft (now : String) (st : DBState) (username : String) :
    DBState × Bool :=
  let st1 := deactivateUserWithLeaveDate st username now
  ({ st1 with bot_logs := st1.bot_logs ++ [⟨username, "left", now, none⟩] },
   true)

/-- `CommunityMemberManager._check_and_handle_rejoined_member`: if the user's
*current* history has `has_previous_membership`, reset their tracking and log
a `rejoined` change. -/
def checkAndHandleRejoinedMember (now : String) (st : DBState)
    (username : String) : DBState × Bool :=
  match getUserHistory st username with
  | some h =>
    if h.has_previous_membership then
      let st1 := resetUserTracking st username now h.last_join_date
      ({ st1 with bot_logs :=
          st1.bot_logs ++ [⟨username, "rejoined", now, h.last_join_date⟩] },
       true)
    else (st, false)
  | none => (st, false)

/-- The dict returned by `sync_community_members`. -/
structure SyncResult where
  total_followers : Nat
  total_tracked : Int
  new_members : Nat
  left_members : Nat
  rejoined_members : Nat
deriving DecidableEq, Repr

/-- `CommunityMemberManager.sync_community_members`: diff the follower set
against the active tracked set, then (1) add every new member, (2) deactivate
every member who left, (3) re-scan the new members for previous membership and
reset those flagged as rejoining.  `now` models `datetime.now().isoformat()`;
`followers` models the follower set (Python `set` modelled as a duplicate-free
list). -/
def syncCommunityMembers (accountInfo : String → Option AccountInfo)
    (followers : List String) (now : String) (st : DBState) :
    SyncResult × DBState :=
  let tracked := getTrackedUsers st
  let newMembers := followers.filter (fun u => !(tracked.contains u))
  let leftMembers := tracked.filter (fun u => !(followers.contains u))
  let p1 := newMembers.foldl
    (fun (acc : DBState × Nat) u =>
      let r := addNewMember accountInfo now acc.1 u
      (r.1, if r.2 then acc.2 + 1 else acc.2))
    (st, 0)
  let p2 := leftMembers.foldl
    (fun (acc : DBState × Nat) u =>
      let r := handleMemberLeft now acc.1 u
      (r.1, if r.2 then acc.2 + 1 else acc.2))
    (p1.1, 0)
  let p3 := newMembers.foldl
    (fun (acc : DBState × Nat) u =>
      let r := checkAndHandleRejoinedMember now acc.1 u
      (r.1, if r.2 then acc.2 + 1 else acc.2))
    (p2.1, 0)
  ({ total_followers := followers.length
     total_tracked := (tracked.length : Int) + (p1.2 : Int) - (p2.2 : Int)
     new_members := p1.2
     left_members := p2.2
     rejoined_members := p3.2 },
   p3.1)

/-! ## Eligibility and the batch collector (`src/analytics/collector.py`) -/

/-- The `dict(row)` view of a `users` row as produced by
`sqlite3.Row` + `dict()` in `DatabaseManager.get_user_info` (schema columns
only; the autoincrement `id` is omitted). -/
def userInfoDict (r : UserRow) : List (String × SqlVal) :=
  [("username", .text r.username), ("display_name", .text r.display_name),
   ("reputation", .int r.reputation), ("followers", .int r.followers),
   ("following", .int r.following), ("created_at", .text r.created_at),
   ("updated_at", .text r.updated_at), ("is_active", .bool r.is_active),
   ("is_business", .bool r.is_business),
   ("business_description", .text r.business_description),
   ("tags", .text r.tags)]

/-- `CommunityMemberManager.get_member_join_date`:
`user_info.get('join_date')` — a dict lookup of the key `join_date` in the
`users` row dict. -/
def getMemberJoinDate (st : DBState) (u : String) : Option SqlVal :=
  (getUserInfo st u).bind (fun r => (userInfoDict r).lookup "join_date")

/-- The eligibility test of `get_user_activities_blockchain_wide`: with a join
date on record, collect iff `date_datetime >= join_datetime`; with none,
treat as a legacy member and collect.  ISO-8601 timestamp strings compare
chronologically as character lists, which models the `datetime` comparison of
the source (a `date` at midnight precedes the same day with a later time). -/
def shouldCollect (st : DBState) (u : String) (date : String) : Bool :=
  match getMemberJoinDate st u with
  | none => true
  | some (.text jd) => !(lexLt date.data jd.data)
  | some _ => true

/-- `AnalyticsCollector.get_user_activities_blockchain_wide`: collect one
`UserActivity` per currently tracked member passing the eligibility test, then
store the batch via `store_user_activities`. -/
def getUserActivitiesBlockchainWide
    (fetch : String → Nat → Except String (List RawActivity))
    (st : DBState) (date : String) : List UserActivity × DBState :=
  let acts := ((getTrackedUsers st).filter (fun u => shouldCollect st u date)).map
    (fun u => collectViaApi fetch u date)
  (acts, storeUserActivitiesSt st acts date)

/-! ## Top performers (`AnalyticsCollector.identify_top_performers`) -/

/-- Python's `max(xs, key=f, default=None)`: `none` on the empty list, else the
*first* element whose key is maximal (a later element replaces the current
maximum only when its key is strictly greater). -/
def pyMaxBy {β α : Type} [LinearOrder α] (f : β → α) : List β → Option β
  | [] => none
  | a :: as => some (as.foldl (fun b x => if f b < f x then x else b) a)

/-- The dict returned by `identify_top_performers`.  `top_poster`,
`top_commenter` and `top_supporter` carry a tie list of usernames plus the
maximal count; `top_engagement` carries a single optional username plus score;
`rising_star` is the top engagement holder (improvement is the constant
`"N/A"`); `consistent_contributor` pairs the balanced winner's username with
the *first* user's balance score (faithful to `balanced_users[0][1]` in the
source). -/
structure TopPerformers where
  top_poster : List String × Nat
  top_commenter : List String × Nat
  top_supporter : List String × Nat
  top_engagement : Option String × ℚ
  rising_star : Option (String × ℚ)
  consistent_contributor : Option (String × Nat)
deriving DecidableEq, Repr

/-- `AnalyticsCollector._find_rising_star`: `None` on the empty list, else the
user with the highest engagement score. -/
def findRisingStar (l : List UserActivity) : Option (String × ℚ) :=
  match pyMaxBy (·.engagement_score) l with
  | none => none
  | some u => some (u.username, u.engagement_score)

/-- `AnalyticsCollector._find_consistent_contributor`: pair each user with
`min(posts_count, comments_count, upvotes_given // 5)`, take the pair with the
maximal score, but report `balanced_users[0][1]` (the first pair's score) as
the consistency score — faithful to the source. -/
def findConsistentContributor (l : List UserActivity) : Option (String × Nat) :=
  let balanced := l.map (fun u =>
    (u, min u.posts_count (min u.comments_count (u.upvotes_given / 5))))
  match balanced, pyMaxBy (fun p : UserActivity × Nat => p.2) balanced with
  | b :: _, some w => some (w.1.username, b.2)
  | _, _ => none

/-- `AnalyticsCollector.identify_top_performers`. -/
def identifyTopPerformers (l : List UserActivity) : TopPerformers :=
  let tp := pyMaxBy (·.posts_count) l
  let tc := pyMaxBy (·.comments_count) l
  let ts := pyMaxBy (·.upvotes_given) l
  let te := pyMaxBy (·.engagement_score) l
  { top_poster :=
      match tp with
      | some b => ((l.filter (fun u => u.posts_count == b.posts_count)).map
          (·.username), b.posts_count)
      | none => ([], 0)
    top_commenter :=
      match tc with
      | some b => ((l.filter (fun u => u.comments_count == b.comments_count)).map
          (·.username), b.comments_count)
      | none => ([], 0)
    top_supporter :=
      match ts with
      | some b => ((l.filter (fun u => u.upvotes_given == b.upvotes_given)).map
          (·.username), b.upvotes_given)
      | none => ([], 0)
    top_engagement :=
      match te with
      | some b => (some b.username, b.engagement_score)
      | none => (none, 0)
    rising_star := findRisingStar l
    consistent_contributor := findConsistentContributor l }

/-! ## Health index (`AnalyticsCollector._calculate_health_index`) -/

/-- Rounding to 2 decimals.  Python's `round` is round-half-to-even on binary
floats; on `ℚ` we use round-half-up, which agrees except at exact half-cent
values (immaterial to the claims: both sides of every equation below use the
same `round2`, and the bound proofs use only its monotonicity). -/
def round2 (x : ℚ) : ℚ := (⌊x * 100 + 1 / 2⌋ : ℚ) / 100

/-- `AnalyticsCollector._calculate_health_index`: `0.0` for the empty list;
otherwise `min(100, avg_engagement / 10 + engagement_distribution * 0.5)`
rounded to 2 decimals, where `avg_engagement` is the mean engagement score and
`engagement_distribution` the percentage of users whose score is strictly
above the mean (`sum` and `len(filter)` modelled as `foldl` and
`(List.filter _).length`). -/
def calculateHealthIndex (l : List UserActivity) : ℚ :=
  if l.isEmpty then 0
  else
    let total := (l.map (·.engagement_score)).foldl (· + ·) 0
    let avg := total / (l.length : ℚ)
    let high := (l.filter (fun a => avg < a.engagement_score)).length
    let dist := ((high : ℚ) / (l.length : ℚ)) * 100
    round2 (min 100 (avg / 10 + dist * (1 / 2)))

/-! ### Specification-side formulations (for claims C1 and C8) -/

/-- Mean engagement score, written with `List.sum`. -/
def specAvgEngagement (l : List UserActivity) : ℚ :=
  (l.map (·.engagement_score)).sum / (l.length : ℚ)

/-- Number of activities with engagement score strictly above the mean,
written with `List.countP`. -/
def specHighEngagement (l : List UserActivity) : Nat :=
  l.countP (fun a => decide (specAvgEngagement l < a.engagement_score))

/-- Modelled from the spec: the Patacoins reward formula
`posts_count*2.0 + comments_count*0.5 + min(upvotes_given*0.02, 0.5)
 + upvotes_received*0.1`.  No code in the repository computes a Patacoins
value — the formula appears only in the report template of
`src/reporting/generator.py` ("2.0 Patacoins por post", "0.5 Patacoins por
comentario", "0.02 Patacoins por upvote (máx 0.5/día)", "0.1 Patacoins por
upvote recibido"). -/
def patacoinsSpec (posts comments given received : Nat) : ℚ :=
  (posts : ℚ) * 2 + (comments : ℚ) * (1 / 2) +
    min ((given : ℚ) * (2 / 100)) (1 / 2) + (received : ℚ) * (1 / 10)

/-- `AnalyticsCollector._calculate_engagement_score`: the weighted formula
`round((posts * 10) + (comments * 5) + (upvotes_given * 2) +
(upvotes_received * 1), 2)`.  It is defined in the source but never called
from the collection path. -/
def calculateEngagementScore (posts comments given received : Nat) : ℚ :=
  round2 ((posts : ℚ) * 10 + (comments : ℚ) * 5 + (given : ℚ) * 2 +
    (received : ℚ) * 1)

/-- `patacoins_earned` default of the `src/database/models.py` `UserActivity`
dataclass (the only patacoins value any record ever carries, since nothing in
the repository computes one). -/
def modelsPatacoinsDefault : ℚ := 0

/-! ## Lemmas -/

/-- The counting loop of `get_user_blockchain_activity` computes, over any
initial state, the number of raw operations classified as posts, comments and
votes. -/
theorem foldl_countsStep (raws : List RawActivity) (s : Nat × Nat × Nat) :
    raws.foldl countsStep s =
      (s.1 + raws.countP isPostOp, s.2.1 + raws.countP isCommentOp,
        s.2.2 + raws.countP isVoteOp) := by
  induction raws generalizing s with
  | nil => simp
  | cons a t ih =>
    simp only [List.foldl_cons, ih, List.countP_cons]
    unfold countsStep isPostOp isCommentOp isVoteOp
    by_cases h1 : a.type == "comment" <;>
      by_cases h2 : (opListOf a).length > 1 <;>
      by_cases h3 : parentAt1 a == "" <;>
      by_cases h4 : a.type == "vote" <;>
      simp [h1, h2, h3, h4] <;> omega

end HivePulse

namespace HivePulse

/-! ## Claim C1 -/

/-- C1, counterexample: for the scenario input — two content operations (one
with empty parent reference, one non-empty) and three votes — per-user
collection returns posts_count = 1, comments_count = 1, upvotes_given = 3,
but engagement_score = min(5 * 0.1, 10.0) = 0.5, not the claimed weighted
value 21.0 (which is what the *unused* helper
`_calculate_engagement_score` would return). -/
theorem c1_engagement_score_counterexample :
    (getUserBlockchainActivityOk "bob" c1ScenarioRaws).posts_count = 1 ∧
    (getUserBlockchainActivityOk "bob" c1ScenarioRaws).comments_count = 1 ∧
    (getUserBlockchainActivityOk "bob" c1ScenarioRaws).upvotes_given = 3 ∧
    (getUserBlockchainActivityOk "bob" c1ScenarioRaws).upvotes_received = 0 ∧
    (getUserBlockchainActivityOk "bob" c1ScenarioRaws).engagement_score = 1 / 2 ∧
    calculateEngagementScore 1 1 3 0 = 21 ∧
    (getUserBlockchainActivityOk "bob" c1ScenarioRaws).engagement_score ≠
      calculateEngagementScore 1 1 3 0 := by
  refine ⟨by decide, by decide, by decide, by decide, ?_, ?_, ?_⟩ <;>
    simp [getUserBlockchainActivityOk, c1ScenarioRaws, countsStep, contentOp,
      voteOp, opListOf, parentAt1, calculateEngagementScore, round2] <;>
    norm_num

/-- C1, amended: for every user and raw-operation list, per-user collection
classifies a kind-`comment` operation with an `op` list longer than 1 as a
post when its parent reference is empty and as a comment otherwise, counts
kind-`vote` operations as upvotes given, leaves upvotes_received at 0, and
sets `engagement_score =
min((posts_count + comments_count + upvotes_given) * 0.1, 10.0)` — not the
weighted formula of the claim. -/
theorem c1_collect_activity_amended (u : String) (raws : List RawActivity) :
    getUserBlockchainActivityOk u raws =
      { username := u
        posts_count := raws.countP isPostOp
        comments_count := raws.countP isCommentOp
        upvotes_given := raws.countP isVoteOp
        upvotes_received := 0
        engagement_score :=
          min (((raws.countP isPostOp : ℚ) + raws.countP isCommentOp +
            raws.countP isVoteOp) * (1 / 10)) 10 } := by
  unfold getUserBlockchainActivityOk
  rw [foldl_countsStep]
  push_cast
  simp

/-! ## Claim C6 -/

/-- C6: the result of per-user collection does not depend on the requested
date — the collector invokes the Activity Source as
`get_user_blockchain_activity(username, days=1)` and never passes `date` to
it, so two different requested dates give identical results. -/
theorem c6_collect_ignores_requested_date
    (fetch : String → Nat → Except String (List RawActivity))
    (u d₁ d₂ : String) :
    collectViaApi fetch u d₁ = collectViaApi fetch u d₂ := rfl

/-! ## Concrete database fixtures for claims C2, C4 and C9 -/

/-- A former member: joined 2024-01-01, left 2024-06-01, currently inactive,
with both lifecycle markers in `tags`. -/
def aliceFormer : UserRow :=
  { username := "alice", display_name := "alice", reputation := 0
    followers := 0, following := 0
    created_at := "2024-01-01T00:00:00", updated_at := "2024-06-01T00:00:00"
    is_active := false, is_business := false, business_description := ""
    tags := "joined:2024-01-01T00:00:00,left:2024-06-01T00:00:00" }

/-- A `daily_activity` row of alice's earlier membership. -/
def aliceOldDaily : DailyRow :=
  { date := "2024-05-20", username := "alice", posts_count := 1
    comments_count := 0, upvotes_given := 0, upvotes_received := 0
    engagement_score := 0 }

/-- Database state before the sync in which alice reappears. -/
def stFormer : DBState :=
  { users := [aliceFormer]
    user_activities := [("alice", "2024-05-20")]
    daily_activity := [aliceOldDaily]
    bot_logs := [] }

/-- An Activity Source for which account info is always available. -/
def infoAvailable : String → Option AccountInfo :=
  fun _ => some { display_name := "alice", reputation := 0, followers := 0, following := 0 }

/-- The sync timestamp of the scenario. -/
def nowSync : String := "2024-07-01T00:00:00"

/-! ## Substring lemmas (for claim C4) -/

/-- A prefix of `h` is still a prefix after extending `h` on the right. -/
theorem leadsWith_append (n h e : List Char) (hp : leadsWith n h = true) :
    leadsWith n (h ++ e) = true := by
  induction n generalizing h with
  | nil => simp [leadsWith]
  | cons a as ih =>
    cases h with
    | nil => simp [leadsWith] at hp
    | cons b bs =>
      simp only [leadsWith, Bool.and_eq_true] at hp ⊢
      exact ⟨hp.1, ih bs hp.2⟩

/-- Every list is a prefix of itself. -/
theorem leadsWith_refl (n : List Char) : leadsWith n n = true := by
  induction n with
  | nil => rfl
  | cons a as ih => simp [leadsWith, ih]

/-- The empty list occurs in every list. -/
theorem hasSub_nil (l : List Char) : hasSub [] l = true := by
  cases l with
  | nil => rfl
  | cons c t => simp [hasSub, leadsWith]

/-- A substring of `h` is still a substring after extending `h` on the
right. -/
theorem hasSub_append_left (n h e : List Char) (hs : hasSub n h = true) :
    hasSub n (h ++ e) = true := by
  induction h with
  | nil =>
    simp only [hasSub, List.isEmpty_iff] at hs
    subst hs
    exact hasSub_nil e
  | cons c t ih =>
    simp only [hasSub, Bool.or_eq_true] at hs
    rcases hs with hs | hs
    · simpa [hasSub] using Or.inl (leadsWith_append n (c :: t) e hs)
    · simpa [hasSub] using Or.inr (ih hs)

/-- A substring of `e` is still a substring after extending `e` on the
left. -/
theorem hasSub_append_right (n h e : List Char) (hs : hasSub n e = true) :
    hasSub n (h ++ e) = true := by
  induction h with
  | nil => simpa using hs
  | cons c t ih => simpa [hasSub] using Or.inr ih

/-- Every list occurs in itself. -/
theorem hasSub_self (n : List Char) : hasSub n n = true := by
  cases n with
  | nil => rfl
  | cons c t => simp [hasSub, leadsWith_refl]

/-! ## Claim C2 -/

/-- C2: alice is a current follower, not in the active tracked set, and her
prior Member row's tags contain a `left:` marker — yet
`sync_community_members` does *not* treat her as a rejoin: the new-member
pass has already replaced her row (tags become `joined:<now>`) before the
rejoin check runs, so `rejoined_members = 0`, she is counted as a brand-new
member, and her `daily_activity` rows survive instead of being deleted. -/
theorem c2_sync_rejoin_not_detected :
    containsStr aliceFormer.tags "left:" = true ∧
    getTrackedUsers stFormer = [] ∧
    (syncCommunityMembers infoAvailable ["alice"] nowSync stFormer).1.rejoined_members
      = 0 ∧
    (syncCommunityMembers infoAvailable ["alice"] nowSync stFormer).1.new_members
      = 1 ∧
    ((syncCommunityMembers infoAvailable ["alice"] nowSync stFormer).2).daily_activity.map
      (fun r => (r.username, r.date)) = [("alice", "2024-05-20")] ∧
    ((syncCommunityMembers infoAvailable ["alice"] nowSync stFormer).2).users.map
      (·.tags) = ["joined:" ++ nowSync] := by
  refine ⟨by decide, by decide, by decide, by decide, by decide, by decide⟩

/-! ## Claim C4 -/

/-- C4, counterexample: applying the rejoin transition
(`reset_user_tracking`) to alice's row — whose tags hold the markers
`joined:2024-01-01T00:00:00` and `left:2024-06-01T00:00:00` — replaces the
tags wholesale: neither prior marker is still present afterwards, so `tags`
is not append-only across lifecycle transitions. -/
theorem c4_rejoin_drops_markers_counterexample :
    containsStr aliceFormer.tags "joined:2024-01-01T00:00:00" = true ∧
    containsStr aliceFormer.tags "left:2024-06-01T00:00:00" = true ∧
    ((resetUserTracking stFormer "alice" nowSync
        (some "2024-01-01T00:00:00")).users.map (·.tags) =
      ["rejoined:2024-07-01T00:00:00,previous_member:2024-01-01T00:00:00"]) ∧
    containsStr "rejoined:2024-07-01T00:00:00,previous_member:2024-01-01T00:00:00"
      "joined:2024-01-01T00:00:00" = false ∧
    containsStr "rejoined:2024-07-01T00:00:00,previous_member:2024-01-01T00:00:00"
      "left:2024-06-01T00:00:00" = false := by
  refine ⟨by decide, by decide, by decide, by decide, by decide⟩

/-- C4, amended: the *leave* transition is append-only — every marker present
in the tags before `deactivate_user_with_leave_date` runs is still a
substring of the new tags, and the new `left:<leave_date>` marker is
appended (comma-delimited when the prior tags are non-empty).  The join
(`INSERT OR REPLACE`) and rejoin (`reset_user_tracking`) transitions instead
replace the tags wholesale. -/
theorem c4_leave_transition_appends (current d marker : String)
    (h : containsStr current marker = true) :
    containsStr (leaveTags current d) marker = true ∧
    containsStr (leaveTags current d) ("left:" ++ d) = true := by
  unfold containsStr at h ⊢
  unfold leaveTags
  by_cases hc : current = ""
  · subst hc
    have hm : marker.data = [] := by
      simpa [hasSub, List.isEmpty_iff] using h
    rw [if_pos rfl]
    exact ⟨by rw [hm]; exact hasSub_nil _, hasSub_self _⟩
  · rw [if_neg hc]
    constructor
    · have h1 := hasSub_append_left marker.data current.data
        (",left:".data ++ d.data) h
      simpa [String.data_append, List.append_assoc] using h1
    · have hcomma : ",left:".data = ',' :: "left:".data := rfl
      have h2 : hasSub ("left:".data ++ d.data)
          ((current.data ++ [',']) ++ ("left:".data ++ d.data)) = true :=
        hasSub_append_right _ _ _ (hasSub_self _)
      simpa [String.data_append, hcomma, List.append_assoc] using h2

/-- C4, witness: a concrete leave transition on tags holding a `joined:`
marker keeps that marker and appends the `left:` marker. -/
theorem c4_leave_transition_appends_witness :
    containsStr "joined:2024-01-01T00:00:00" "joined:" = true ∧
    (containsStr
        (leaveTags "joined:2024-01-01T00:00:00" "2024-06-01T00:00:00")
        "joined:" = true ∧
      containsStr
        (leaveTags "joined:2024-01-01T00:00:00" "2024-06-01T00:00:00")
        ("left:" ++ "2024-06-01T00:00:00") = true) :=
  ⟨by decide,
    c4_leave_transition_appends "joined:2024-01-01T00:00:00"
      "2024-06-01T00:00:00" "joined:" (by decide)⟩

/-! ## Claim C9 -/

/-- Alice's row as an *active* member (joined 2024-01-01, recorded in
`created_at` and `tags`, as `add_user_with_join_date` writes it). -/
def aliceActiveRow : UserRow :=
  { aliceFormer with
    is_active := true
    updated_at := "2024-01-01T00:00:00"
    tags := "joined:2024-01-01T00:00:00" }

/-- Database state tracking only the active member alice. -/
def stActiveAlice : DBState :=
  { users := [aliceActiveRow]
    user_activities := [], daily_activity := [], bot_logs := [] }

/-- C9: alice's recorded join date (`created_at`) is 2024-01-01, after the
requested date 2023-12-31 — yet batch collection does *not* skip her:
`get_member_join_date` looks up the key `join_date`, which is not a column of
the `users` table, so it returns `None` and alice is treated as a legacy
member and collected. -/
theorem c9_join_date_never_skips :
    (getUserInfo stActiveAlice "alice").map (·.created_at) =
      some "2024-01-01T00:00:00" ∧
    ((userInfoDict aliceActiveRow).map (·.1)).contains "join_date" = false ∧
    getMemberJoinDate stActiveAlice "alice" = none ∧
    ((getUserActivitiesBlockchainWide (fun _ _ => .ok []) stActiveAlice
        "2023-12-31").1).map (·.username) = ["alice"] := by
  refine ⟨by decide, by decide, by decide, by decide⟩

/-! ## Claim C3 -/

/-- A user activity with a single post (C3 fixture). -/
def bobOnePost : UserActivity :=
  { username := "bob", posts_count := 1, comments_count := 0
    upvotes_given := 0, upvotes_received := 0, engagement_score := 0 }

/-- The `daily_activity` row `store_user_activities` writes for
`bobOnePost` on 2024-05-01. -/
def bobOnePostRow : DailyRow :=
  { date := "2024-05-01", username := "bob", posts_count := 1
    comments_count := 0, upvotes_given := 0, upvotes_received := 0
    engagement_score := 0 }

/-- C3: `store_user_activities` writes exactly the seven columns
`(date, username, posts_count, comments_count, upvotes_given,
upvotes_received, engagement_score)` — no Patacoins value is computed or
stored anywhere, so a row with one post carries no `patacoins_earned = 2.0`;
the spec formula itself (modelled as `patacoinsSpec`) gives 2 for one post
and caps the vote component of 1000 upvotes at 0.5, while the only Patacoins
value any record carries is the dataclass default 0.0. -/
theorem c3_patacoins_never_computed :
    storeUserActivities [] [bobOnePost] "2024-05-01" = [bobOnePostRow] ∧
    patacoinsSpec 1 0 0 0 = 2 ∧
    patacoinsSpec 0 0 1000 0 = 1 / 2 ∧
    modelsPatacoinsDefault ≠ patacoinsSpec 1 0 0 0 := by
  refine ⟨by decide, ?_, ?_, ?_⟩ <;>
    simp [patacoinsSpec, modelsPatacoinsDefault] <;> norm_num

/-! ## Claim C5 -/

/-- The fold inside `pyMaxBy` returns an element of `a :: as` whose key bounds
every key in `a :: as` (Python `max` keeps the first maximal element). -/
theorem pyMaxBy_go {β α : Type} [LinearOrder α] (f : β → α) (as : List β)
    (a : β) :
    (as.foldl (fun b x => if f b < f x then x else b) a) ∈ a :: as ∧
    ∀ x ∈ a :: as, f x ≤ f (as.foldl (fun b x => if f b < f x then x else b) a) := by
  induction as generalizing a with
  | nil => simp
  | cons y ys ih =>
    simp only [List.foldl_cons]
    by_cases hay : f a < f y
    · rw [if_pos hay]
      have ihy := ih y
      refine ⟨List.mem_cons_of_mem a ihy.1, ?_⟩
      intro x hx
      rcases List.mem_cons.mp hx with rfl | hx'
      · exact le_trans (le_of_lt hay) (ihy.2 y (List.mem_cons_self _ _))
      · exact ihy.2 x hx'
    · rw [if_neg hay]
      have iha := ih a
      refine ⟨?_, ?_⟩
      · rcases List.mem_cons.mp iha.1 with h1 | h1
        · rw [h1]; exact List.mem_cons_self _ _
        · exact List.mem_cons_of_mem a (List.mem_cons_of_mem y h1)
      · intro x hx
        rcases List.mem_cons.mp hx with rfl | hx'
        · exact iha.2 x (List.mem_cons_self _ _)
        · rcases List.mem_cons.mp hx' with rfl | hx''
          · exact le_trans (not_lt.mp hay) (iha.2 a (List.mem_cons_self _ _))
          · exact iha.2 x (List.mem_cons_of_mem a hx'')

/-- On a non-empty list, `pyMaxBy` returns an element whose key bounds every
key in the list. -/
theorem pyMaxBy_spec {β α : Type} [LinearOrder α] (f : β → α) (l : List β)
    (h : l ≠ []) :
    ∃ b, pyMaxBy f l = some b ∧ b ∈ l ∧ ∀ x ∈ l, f x ≤ f b := by
  cases l with
  | nil => exact absurd rfl h
  | cons a as =>
    refine ⟨as.foldl (fun b x => if f b < f x then x else b) a, rfl, ?_, ?_⟩
    · exact (pyMaxBy_go f as a).1
    · exact (pyMaxBy_go f as a).2

/-- The activities of the spec's tie-handling example:
`[{u1, posts = 5}, {u2, posts = 5}, {u3, posts = 3}]`. -/
def c5SpecExample : List UserActivity :=
  [{ username := "u1", posts_count := 5, comments_count := 0
     upvotes_given := 0, upvotes_received := 0, engagement_score := 5 },
   { username := "u2", posts_count := 5, comments_count := 0
     upvotes_given := 0, upvotes_received := 0, engagement_score := 5 },
   { username := "u3", posts_count := 3, comments_count := 0
     upvotes_given := 0, upvotes_received := 0, engagement_score := 3 }]

/-- C5, counterexample: on the spec's example `top_poster` does hold the full
tie set `[u1, u2]` with count 5, but the claim fails for `top_engagement`:
u1 and u2 are tied at the maximal engagement score 5, yet the returned
`top_engagement` names only the first of them, with no set of tied users. -/
theorem c5_top_engagement_tie_counterexample :
    (identifyTopPerformers c5SpecExample).top_poster = (["u1", "u2"], 5) ∧
    c5SpecExample.map (·.engagement_score) = [5, 5, 3] ∧
    (identifyTopPerformers c5SpecExample).top_engagement = (some "u1", 5) := by
  refine ⟨by decide, by decide, by decide⟩

/-- C5, amended: for every non-empty activity list, `top_poster`,
`top_commenter` and `top_supporter` hold the list of *all* usernames tied at
the maximum of their metric together with that maximum, while
`top_engagement` holds only a single maximal user and their score (ties are
not preserved for that category). -/
theorem c5_top_performers_ties_amended (l : List UserActivity) (h : l ≠ []) :
    (∃ b ∈ l, (∀ a ∈ l, a.posts_count ≤ b.posts_count) ∧
      (identifyTopPerformers l).top_poster =
        ((l.filter (fun u => u.posts_count == b.posts_count)).map (·.username),
          b.posts_count)) ∧
    (∃ b ∈ l, (∀ a ∈ l, a.comments_count ≤ b.comments_count) ∧
      (identifyTopPerformers l).top_commenter =
        ((l.filter (fun u => u.comments_count == b.comments_count)).map
          (·.username), b.comments_count)) ∧
    (∃ b ∈ l, (∀ a ∈ l, a.upvotes_given ≤ b.upvotes_given) ∧
      (identifyTopPerformers l).top_supporter =
        ((l.filter (fun u => u.upvotes_given == b.upvotes_given)).map
          (·.username), b.upvotes_given)) ∧
    (∃ b ∈ l, (∀ a ∈ l, a.engagement_score ≤ b.engagement_score) ∧
      (identifyTopPerformers l).top_engagement =
        (some b.username, b.engagement_score)) := by
  obtain ⟨bp, hbp, hbpm, hbpb⟩ := pyMaxBy_spec (·.posts_count) l h
  obtain ⟨bc, hbc, hbcm, hbcb⟩ := pyMaxBy_spec (·.comments_count) l h
  obtain ⟨bs, hbs, hbsm, hbsb⟩ := pyMaxBy_spec (·.upvotes_given) l h
  obtain ⟨be, hbe, hbem, hbeb⟩ := pyMaxBy_spec (·.engagement_score) l h
  refine ⟨⟨bp, hbpm, hbpb, ?_⟩, ⟨bc, hbcm, hbcb, ?_⟩,
    ⟨bs, hbsm, hbsb, ?_⟩, ⟨be, hbem, hbeb, ?_⟩⟩ <;>
    simp only [identifyTopPerformers, hbp, hbc, hbs, hbe]

/-- C5, witness: the amended theorem at the spec's example list. -/
theorem c5_top_performers_ties_witness :
    (∃ b ∈ c5SpecExample, (∀ a ∈ c5SpecExample, a.posts_count ≤ b.posts_count) ∧
      (identifyTopPerformers c5SpecExample).top_poster =
        ((c5SpecExample.filter (fun u => u.posts_count == b.posts_count)).map
          (·.username), b.posts_count)) ∧
    (∃ b ∈ c5SpecExample,
      (∀ a ∈ c5SpecExample, a.comments_count ≤ b.comments_count) ∧
      (identifyTopPerformers c5SpecExample).top_commenter =
        ((c5SpecExample.filter (fun u => u.comments_count == b.comments_count)).map
          (·.username), b.comments_count)) ∧
    (∃ b ∈ c5SpecExample,
      (∀ a ∈ c5SpecExample, a.upvotes_given ≤ b.upvotes_given) ∧
      (identifyTopPerformers c5SpecExample).top_supporter =
        ((c5SpecExample.filter (fun u => u.upvotes_given == b.upvotes_given)).map
          (·.username), b.upvotes_given)) ∧
    (∃ b ∈ c5SpecExample,
      (∀ a ∈ c5SpecExample, a.engagement_score ≤ b.engagement_score) ∧
      (identifyTopPerformers c5SpecExample).top_engagement =
        (some b.username, b.engagement_score)) :=
  c5_top_performers_ties_amended c5SpecExample (by simp [c5SpecExample])

/-! ## Claim C7 -/

/-- `keyFree acts d r` : the row `r` matches no `(d, username)` key of the
activity batch `acts`. -/
def keyFree (acts : List UserActivity) (d : String) (r : DailyRow) : Bool :=
  acts.all (fun a => !(r.date == d && r.username == a.username))

/-- Number of `daily_activity` rows with key `(d, u)`. -/
def countKey (rows : List DailyRow) (d u : String) : Nat :=
  rows.countP (fun r => r.date == d && r.username == u)

/-- Filtering by `keyFree (a :: as)` is filtering by `keyFree as` and then
dropping rows with `a`'s key. -/
theorem filter_keyFree_cons (a : UserActivity) (as : List UserActivity)
    (d : String) (X : List DailyRow) :
    X.filter (keyFree (a :: as) d) =
      (X.filter (keyFree as d)).filter
        (fun r => !(r.date == d && r.username == a.username)) := by
  rw [List.filter_filter]
  apply List.filter_congr
  intro r _
  simp [keyFree, Bool.and_comm]

/-- Upserting the whole batch leaves the rows outside the batch's keys
untouched. -/
theorem store_filter_keyFree (d : String) :
    ∀ (acts : List UserActivity) (rows : List DailyRow),
      (storeUserActivities rows acts d).filter (keyFree acts d) =
        rows.filter (keyFree acts d) := by
  intro acts
  induction acts with
  | nil => intro rows; rfl
  | cons a as ih =>
    intro rows
    show (storeUserActivities (upsertDaily rows a d) as d).filter
        (keyFree (a :: as) d) = rows.filter (keyFree (a :: as) d)
    rw [filter_keyFree_cons, ih, ← filter_keyFree_cons]
    unfold upsertDaily
    rw [List.filter_cons_of_neg (by simp [keyFree])]
    rw [List.filter_filter]
    apply List.filter_congr
    intro r _
    have hks : keyFree (a :: as) d r =
        (!(r.date == d && r.username == a.username) && keyFree as d r) := by
      simp only [keyFree, List.all_cons]
    cases hk : (r.date == d && r.username == a.username) <;>
      rw [hks, hk] <;> simp

/-- Two row stores agreeing outside the batch's keys agree after upserting
the batch. -/
theorem store_congr_keyFree (d : String) :
    ∀ (acts : List UserActivity) (rows₁ rows₂ : List DailyRow),
      rows₁.filter (keyFree acts d) = rows₂.filter (keyFree acts d) →
      storeUserActivities rows₁ acts d = storeUserActivities rows₂ acts d := by
  intro acts
  induction acts with
  | nil =>
    intro rows₁ rows₂ h
    have ht : ∀ X : List DailyRow, X.filter (keyFree [] d) = X := by
      intro X
      have : keyFree [] d = fun _ => true := by
        funext r; simp [keyFree]
      rw [this, List.filter_true]
    rwa [ht, ht] at h
  | cons a as ih =>
    intro rows₁ rows₂ h
    show storeUserActivities (upsertDaily rows₁ a d) as d =
      storeUserActivities (upsertDaily rows₂ a d) as d
    apply ih
    unfold upsertDaily
    rw [List.filter_cons, List.filter_cons, List.filter_filter,
      List.filter_filter]
    have hcongr : ∀ X : List DailyRow,
        X.filter (fun r => keyFree as d r &&
          !(r.date == d && r.username == a.username)) =
        X.filter (keyFree (a :: as) d) := by
      intro X
      apply List.filter_congr
      intro r _
      simp [keyFree, Bool.and_comm]
    rw [hcongr, hcongr, h]

/-- Upserting an activity leaves exactly one row with its key. -/
theorem countKey_upsert_self (rows : List DailyRow) (a : UserActivity)
    (d : String) :
    countKey (upsertDaily rows a d) d a.username = 1 := by
  unfold countKey upsertDaily
  rw [List.countP_cons, List.countP_filter]
  have h0 : (rows.countP fun r =>
      (r.date == d && r.username == a.username) &&
      !(r.date == d && r.username == a.username)) = 0 := by
    rw [List.countP_eq_zero]
    intro r _
    simp
  rw [h0]
  simp

/-- Upserting an activity with a different username does not change the count
of another key on the same date. -/
theorem countKey_upsert_ne (rows : List DailyRow) (a : UserActivity)
    (d u : String) (hu : ¬(u = a.username)) :
    countKey (upsertDaily rows a d) d u = countKey rows d u := by
  have hne : (a.username == u) = false := by
    simp only [beq_eq_false_iff_ne, ne_eq]
    exact fun h => hu h.symm
  unfold countKey upsertDaily
  rw [List.countP_cons, List.countP_filter, if_neg (by simp [hne]),
    Nat.add_zero]
  apply List.countP_congr
  intro r _
  constructor
  · intro hr
    exact ((Bool.and_eq_true _ _).mp hr).1
  · intro hr
    have hru : r.username = u := beq_iff_eq.mp ((Bool.and_eq_true _ _).mp hr).2
    have h2 : (r.username == a.username) = false := by
      simp only [hru, beq_eq_false_iff_ne, ne_eq]
      exact hu
    simp [hr, h2]

/-- Upserting a batch touching no activity with username `u` preserves the
count of key `(d, u)`. -/
theorem countKey_store_untouched (d u : String) :
    ∀ (acts : List UserActivity) (rows : List DailyRow),
      (∀ b ∈ acts, ¬(u = b.username)) →
      countKey (storeUserActivities rows acts d) d u = countKey rows d u := by
  intro acts
  induction acts with
  | nil => intro rows _; rfl
  | cons a as ih =>
    intro rows hb
    show countKey (storeUserActivities (upsertDaily rows a d) as d) d u =
      countKey rows d u
    rw [ih _ (fun b hbm => hb b (List.mem_cons_of_mem a hbm)),
      countKey_upsert_ne _ _ _ _ (hb a (List.mem_cons_self _ _))]

/-- After storing a batch, every username occurring in the batch has exactly
one `daily_activity` row for that date. -/
theorem countKey_store_of_mem (d : String) :
    ∀ (acts : List UserActivity) (rows : List DailyRow) (u : String),
      (∃ a ∈ acts, a.username = u) →
      countKey (storeUserActivities rows acts d) d u = 1 := by
  intro acts
  induction acts with
  | nil =>
    intro rows u h
    obtain ⟨a, ha, _⟩ := h
    exact absurd ha (List.not_mem_nil a)
  | cons a as ih =>
    intro rows u h
    show countKey (storeUserActivities (upsertDaily rows a d) as d) d u = 1
    by_cases hmem : ∃ b ∈ as, b.username = u
    · exact ih _ u hmem
    · obtain ⟨b, hb, hbu⟩ := h
      rcases List.mem_cons.mp hb with rfl | hbs
      · rw [countKey_store_untouched d u as (upsertDaily rows b d)
          (fun c hc hcu => hmem ⟨c, hc, hcu.symm⟩), ← hbu]
        exact countKey_upsert_self rows b d
      · exact absurd ⟨b, hbs, hbu⟩ hmem

/-- C7: persisting a day's batch is idempotent — storing the same activity
list twice leaves the `daily_activity` table exactly as after the first
store — and after storing, each username of the batch has exactly one row
for that date (no duplicates, no summing). -/
theorem c7_store_user_activities_idempotent (rows : List DailyRow)
    (acts : List UserActivity) (d : String) :
    storeUserActivities (storeUserActivities rows acts d) acts d =
      storeUserActivities rows acts d ∧
    ∀ a ∈ acts, countKey (storeUserActivities rows acts d) d a.username = 1 := by
  constructor
  · exact store_congr_keyFree d acts _ _ (store_filter_keyFree d acts rows)
  · intro a ha
    exact countKey_store_of_mem d acts rows a.username ⟨a, ha, rfl⟩

/-- C7, witness: the idempotence theorem at a concrete one-activity batch. -/
theorem c7_store_user_activities_idempotent_witness :
    storeUserActivities (storeUserActivities [] [bobOnePost] "2024-05-01")
        [bobOnePost] "2024-05-01" =
      storeUserActivities [] [bobOnePost] "2024-05-01" ∧
    countKey (storeUserActivities [] [bobOnePost] "2024-05-01") "2024-05-01"
      bobOnePost.username = 1 :=
  ⟨(c7_store_user_activities_idempotent [] [bobOnePost] "2024-05-01").1,
    (c7_store_user_activities_idempotent [] [bobOnePost] "2024-05-01").2
      bobOnePost (List.mem_cons_self _ _)⟩

/-! ## Claim C8 -/

/-- Python's `sum` (a left fold from 0) equals `List.sum`. -/
theorem foldl_add_eq_sum (l : List ℚ) (x : ℚ) :
    l.foldl (· + ·) x = x + l.sum := by
  induction l generalizing x with
  | nil => simp
  | cons a t ih =>
    rw [List.foldl_cons, ih, List.sum_cons]
    ring

/-- `round2` is monotone. -/
theorem round2_mono {a b : ℚ} (h : a ≤ b) : round2 a ≤ round2 b := by
  unfold round2
  have h1 : (⌊a * 100 + 1 / 2⌋ : ℤ) ≤ ⌊b * 100 + 1 / 2⌋ :=
    Int.floor_le_floor (by linarith)
  have h2 : ((⌊a * 100 + 1 / 2⌋ : ℤ) : ℚ) ≤ ((⌊b * 100 + 1 / 2⌋ : ℤ) : ℚ) := by
    exact_mod_cast h1
  linarith

/-- `round2` of a non-negative value is non-negative. -/
theorem round2_nonneg {a : ℚ} (h : 0 ≤ a) : 0 ≤ round2 a := by
  unfold round2
  have h1 : (0 : ℤ) ≤ ⌊a * 100 + 1 / 2⌋ := Int.floor_nonneg.mpr (by linarith)
  have h2 : (0 : ℚ) ≤ ((⌊a * 100 + 1 / 2⌋ : ℤ) : ℚ) := by exact_mod_cast h1
  linarith

/-- `round2` fixes 100. -/
theorem round2_hundred : round2 100 = 100 := by
  unfold round2
  norm_num

/-- `round2` of a value at most 100 is at most 100. -/
theorem round2_le_hundred {a : ℚ} (h : a ≤ 100) : round2 a ≤ 100 := by
  have h1 := round2_mono h
  rwa [round2_hundred] at h1

/-- C8, amended: the health index is 0 for the empty list and, for every
non-empty list, equals `min(100, avg/10 + distribution*0.5)` rounded to
2 decimals (with `avg` the mean engagement score and `distribution` the
percentage scoring strictly above it); it lies in `[0, 100]` for every input
whose engagement scores are all non-negative (as those produced by
collection are) — but not for arbitrary score values. -/
theorem c8_health_index_amended (l : List UserActivity)
    (h : ∀ a ∈ l, 0 ≤ a.engagement_score) :
    calculateHealthIndex [] = 0 ∧
    0 ≤ calculateHealthIndex l ∧
    calculateHealthIndex l ≤ 100 ∧
    (l ≠ [] → calculateHealthIndex l =
      round2 (min 100 (specAvgEngagement l / 10 +
        ((specHighEngagement l : ℚ) / (l.length : ℚ) * 100) * (1 / 2)))) := by
  have hempty : calculateHealthIndex [] = 0 := by
    simp [calculateHealthIndex]
  by_cases hl : l = []
  · subst hl
    exact ⟨hempty, by rw [hempty], by rw [hempty]; norm_num,
      fun hc => absurd rfl hc⟩
  · have hformula : calculateHealthIndex l =
        round2 (min 100 (specAvgEngagement l / 10 +
          ((specHighEngagement l : ℚ) / (l.length : ℚ) * 100) * (1 / 2))) := by
      unfold calculateHealthIndex specAvgEngagement specHighEngagement
      rw [if_neg (by simpa using hl)]
      rw [foldl_add_eq_sum, zero_add, List.countP_eq_length_filter]
      simp only [specAvgEngagement]
    have havg : 0 ≤ specAvgEngagement l := by
      unfold specAvgEngagement
      apply div_nonneg
      · apply List.sum_nonneg
        intro x hx
        obtain ⟨a, ha, rfl⟩ := List.mem_map.mp hx
        exact h a ha
      · exact_mod_cast Nat.zero_le l.length
    have hdist : (0 : ℚ) ≤
        ((specHighEngagement l : ℚ) / (l.length : ℚ) * 100) * (1 / 2) := by
      apply mul_nonneg
      · apply mul_nonneg
        · apply div_nonneg
          · exact_mod_cast Nat.zero_le _
          · exact_mod_cast Nat.zero_le _
        · norm_num
      · norm_num
    refine ⟨hempty, ?_, ?_, fun _ => hformula⟩
    · rw [hformula]
      apply round2_nonneg
      exact le_min (by norm_num) (by positivity)
    · rw [hformula]
      exact round2_le_hundred (min_le_left _ _)

/-- C8, witness: the amended theorem at a concrete one-member list with
engagement score 3. -/
theorem c8_health_index_amended_witness :
    calculateHealthIndex [] = 0 ∧
    0 ≤ calculateHealthIndex [⟨"u", 0, 0, 0, 0, 3⟩] ∧
    calculateHealthIndex [⟨"u", 0, 0, 0, 0, 3⟩] ≤ 100 ∧
    (([⟨"u", 0, 0, 0, 0, 3⟩] : List UserActivity) ≠ [] →
      calculateHealthIndex [⟨"u", 0, 0, 0, 0, 3⟩] =
        round2 (min 100 (specAvgEngagement [⟨"u", 0, 0, 0, 0, 3⟩] / 10 +
          ((specHighEngagement [⟨"u", 0, 0, 0, 0, 3⟩] : ℚ) /
            (([⟨"u", 0, 0, 0, 0, 3⟩] : List UserActivity).length : ℚ) * 100) *
            (1 / 2)))) :=
  c8_health_index_amended [⟨"u", 0, 0, 0, 0, 3⟩]
    (by intro a ha; rw [List.mem_singleton.mp ha]; norm_num)

/-- C8, counterexample: the health index is *not* bounded below by 0 for all
inputs — a single activity with engagement score −200 yields health index
−20. -/
theorem c8_health_index_negative_counterexample :
    calculateHealthIndex [⟨"neg", 0, 0, 0, 0, -200⟩] = -20 ∧
    ¬(0 ≤ calculateHealthIndex [⟨"neg", 0, 0, 0, 0, -200⟩]) := by
  have hv : calculateHealthIndex [⟨"neg", 0, 0, 0, 0, -200⟩] = -20 := by
    simp only [calculateHealthIndex, round2]
    rw [if_neg (by simp)]
    norm_num [min_def, List.filter]
  exact ⟨hv, by rw [hv]; norm_num⟩

/-! ## Claim C10 -/

/-- C10: on a fetch/parse error, per-user collection returns the
all-zero `UserActivity` for that username (and, being a total function,
never raises). -/
theorem c10_error_returns_zero_activity (u msg : String) :
    getUserBlockchainActivity u (.error msg) =
      { username := u, posts_count := 0, comments_count := 0
        upvotes_given := 0, upvotes_received := 0, engagement_score := 0 } := rfl

end HivePulse
